import Mathlib

/-!
Shallow embedding of the yatube blogging application (posts app):
entity store (posts/models.py), follow graph, feed assembler with
pagination, home-page cache and comment pipeline.  Entities are
records over Nat ids; timestamps are abstract Nat instants.
-/

namespace Yatube

/-- A published post (models.py, class Post): text, creation instant
`pubDate` (auto, immutable), required author id, optional group id
(nullable foreign key, SET_NULL on group delete), optional image
reference. -/
structure Post where
  id : Nat
  text : String
  pubDate : Nat
  author : Nat
  group : Option Nat
  image : Option String
deriving DecidableEq

/-- A group (models.py, class Group): title, unique slug, description. -/
structure Group where
  id : Nat
  title : String
  slug : String
  description : String
deriving DecidableEq

/-- A comment (models.py, class Comment): nullable post and author
references, text, creation instant `created` (auto, immutable). -/
structure Comment where
  id : Nat
  post : Option Nat
  author : Option Nat
  text : String
  created : Nat
deriving DecidableEq

/-- A follow edge (models.py, class Follow): `user` follows `author`;
the pair is subject to the `unique_followers` constraint. -/
structure Follow where
  user : Nat
  author : Nat
deriving DecidableEq

/-- The relational entity store. -/
structure Store where
  posts : List Post
  groups : List Group
  comments : List Comment
  follows : List Follow
deriving DecidableEq

/-- The `unique_followers` constraint of models.py: no two Follow rows
share the same ordered (user, author) pair. -/
def followUnique (s : Store) : Prop :=
  (s.follows.map (fun f => (f.user, f.author))).Nodup

instance (s : Store) : Decidable (followUnique s) := by
  unfold followUnique; infer_instance

/-- Modelled from the spec: `isFollowing(user, author)`, a Follow-row
existence query (the views code is not under src/; only models.py and
the tests are). -/
def isFollowing (s : Store) (u a : Nat) : Bool :=
  s.follows.any (fun f => f.user == u && f.author == a)

/-- Number of Follow rows for the ordered pair (u, a). -/
def countEdges (s : Store) (u a : Nat) : Nat :=
  (s.follows.filter (fun f => f.user == u && f.author == a)).length

/-- Modelled from the spec: `follow(user, author)` creates the edge if
absent and is a no-op on a duplicate (spec 4.1: attempt-insert with the
store's uniqueness constraint, duplicate treated as idempotent
success).  The view implementing it is not under src/. -/
def follow (s : Store) (u a : Nat) : Store :=
  if isFollowing s u a then s
  else { s with follows := ⟨u, a⟩ :: s.follows }

/-- Modelled from the spec: `unfollow(user, author)` removes the edge
if present; removing a non-existent edge is not an error (idempotent).
The view implementing it is not under src/. -/
def unfollow (s : Store) (u a : Nat) : Store :=
  { s with follows := s.follows.filter (fun f => !(f.user == u && f.author == a)) }

/-- Modelled from the spec: `followingOf(user)`, the author ids of the
user's outgoing follow edges, consumed by the feed assembler. -/
def followingOf (s : Store) (u : Nat) : List Nat :=
  (s.follows.filter (fun f => f.user == u)).map Follow.author

/-! ### Sorting (descending by a Nat key)

The feed assembler returns posts newest first (Post.Meta ordering
`('-pub_date',)`) and comments newest first (Comment.Meta ordering
`('-created',)`).  Insertion sort on a Nat key, descending. -/

def insertDesc {α : Type} (key : α → Nat) (x : α) : List α → List α
  | [] => [x]
  | y :: ys => if key y ≤ key x then x :: y :: ys else y :: insertDesc key x ys

def sortDesc {α : Type} (key : α → Nat) : List α → List α
  | [] => []
  | x :: xs => insertDesc key x (sortDesc key xs)

/-! ### Pagination

Modelled from the spec (the views and the paginator call sites are not
under src/): fixed page size, 1-based page indices, `page = 1` the
default for a page index below 1, a page beyond the last yielding an
empty sequence. -/

/-- Modelled from the spec: the fixed page size `POSTS_COUNT` that
posts/views.py exports (the tests import it; the spec's reference value
is 10). -/
def POSTS_COUNT : Nat := 10

/-- Modelled from the spec: a page index below 1 falls back to 1. -/
def normPage (page : Nat) : Nat := if page = 0 then 1 else page

/-- Modelled from the spec: page `page` of `l` with `size` items per
page (1-based). -/
def paginate {α : Type} (l : List α) (page size : Nat) : List α :=
  (l.drop ((normPage page - 1) * size)).take size

/-- Modelled from the spec: the index of the last available page
(ceiling of count / size). -/
def lastPage (count size : Nat) : Nat :=
  count / size + (if count % size = 0 then 0 else 1)

/-! ### Feed assembler (the views are not under src/; the scopes are
modelled from the spec, the orderings from models.py) -/

/-- The global feed: all posts, newest first (Post.Meta ordering
`('-pub_date',)`). -/
def globalFeed (s : Store) : List Post :=
  sortDesc Post.pubDate s.posts

/-- Group lookup by slug (`unique=True` in models.py). -/
def findGroup (s : Store) (slug : String) : Option Group :=
  s.groups.find? (fun g => g.slug == slug)

/-- Modelled from the spec: `ByGroup(slug)` — the posts of the group
with the given slug, newest first (an unknown slug is NotFound at the
boundary; the feed itself is then empty). -/
def byGroupFeed (s : Store) (slug : String) : List Post :=
  match findGroup s slug with
  | none => []
  | some g => sortDesc Post.pubDate (s.posts.filter (fun p => p.group == some g.id))

/-- Modelled from the spec: `ByAuthor(username)` — the author's posts,
newest first. -/
def byAuthorFeed (s : Store) (author : Nat) : List Post :=
  sortDesc Post.pubDate (s.posts.filter (fun p => p.author == author))

/-- Modelled from the spec: `FollowingFeed(user)` — posts whose author
is in `followingOf(user)`, newest first. -/
def followingFeed (s : Store) (u : Nat) : List Post :=
  sortDesc Post.pubDate (s.posts.filter (fun p => decide (p.author ∈ followingOf s u)))

/-- Store well-formedness from models.py: group primary keys are
unique, and Group.slug carries `unique=True`. -/
def storeWF (s : Store) : Prop :=
  (s.groups.map Group.id).Nodup ∧ (s.groups.map Group.slug).Nodup

instance (s : Store) : Decidable (storeWF s) := by
  unfold storeWF; infer_instance

/-! ### The declared Post ordering (models.py, Post.Meta) -/

/-- models.py, Post.Meta: `ordering = ('-pub_date',)`.  A result
sequence satisfies the declared ordering exactly when consecutive
posts have nonincreasing `pub_date`; the declaration names no further
key. -/
def pubDateSortedDesc : List Post → Bool
  | [] => true
  | [_] => true
  | p :: q :: r => (decide (q.pubDate ≤ p.pubDate)) && pubDateSortedDesc (q :: r)

/-! ### Page cache (home feed only; modelled from the spec, the view
and template caching code is not under src/) -/

/-- Cache time-to-live (spec 4.3 reference value: 20 seconds). -/
def CACHE_TTL : Nat := 20

/-- Modelled from the spec: the rendered global feed, page 1 — the
rendering is abstracted as the sequence of post ids on the page. -/
def renderIndex (s : Store) : List Nat :=
  (paginate (globalFeed s) 1 POSTS_COUNT).map Post.id

/-- Process state: the entity store plus the single-key home-page
cache entry (rendering and its expiry instant). -/
structure CacheState where
  store : Store
  cached : Option (List Nat × Nat)
deriving DecidableEq

/-- Modelled from the spec: serve the home feed at instant `now`.
Within the TTL the cached rendering is returned unchanged even if the
posts changed; otherwise the feed is rendered live and cached for
CACHE_TTL. -/
def requestIndex (st : CacheState) (now : Nat) : List Nat × CacheState :=
  match st.cached with
  | some (r, expiry) =>
    if now < expiry then (r, st)
    else (renderIndex st.store, ⟨st.store, some (renderIndex st.store, now + CACHE_TTL)⟩)
  | none => (renderIndex st.store, ⟨st.store, some (renderIndex st.store, now + CACHE_TTL)⟩)

/-- Modelled from the spec: the explicit administrative cache clear. -/
def clearCache (st : CacheState) : CacheState := ⟨st.store, none⟩

/-- Delete every Post (`Post.objects.all().delete()` in the cache
test): the posts go away and their comments cascade with them
(models.py, CASCADE); the cache entry is not touched (spec 4.3: writes
do not invalidate). -/
def deleteAllPostsStore (s : Store) : Store :=
  { s with posts := ([] : List Post), comments := s.comments.filter (fun c => c.post == none) }

def deleteAllPosts (st : CacheState) : CacheState :=
  ⟨deleteAllPostsStore st.store, st.cached⟩

/-! ### Comment pipeline -/

/-- Error taxonomy of spec section 7 used by the modelled views. -/
inductive OpError
  | unauthorized
  | notFound
deriving DecidableEq

def freshCommentId (s : Store) : Nat :=
  s.comments.foldr (fun c m => max c.id m) 0 + 1

/-- The comments of a post, newest first (Comment.Meta ordering
`('-created',)` from models.py). -/
def postComments (s : Store) (pid : Nat) : List Comment :=
  sortDesc Comment.created (s.comments.filter (fun c => c.post == some pid))

/-- The authenticated arm of `addComment`: NotFound on a missing post,
else a fresh Comment row with `created = now` is prepended. -/
def addCommentAuth (s : Store) (u pid : Nat) (txt : String) (now : Nat) :
    Except OpError Comment × Store :=
  if s.posts.any (fun p => p.id == pid) then
    (Except.ok ⟨freshCommentId s, some pid, some u, txt, now⟩,
     { s with comments := (⟨freshCommentId s, some pid, some u, txt, now⟩ : Comment) :: s.comments })
  else (Except.error OpError.notFound, s)

/-- Modelled from the spec: `addComment(post, author, text)` — an
unauthenticated caller gets Unauthorized and no Comment row is
created; an authenticated caller appends a Comment with `created =
now`.  The add_comment view is not under src/. -/
def addComment (s : Store) (auth : Option Nat) (pid : Nat) (txt : String) (now : Nat) :
    Except OpError Comment × Store :=
  match auth with
  | none => (Except.error OpError.unauthorized, s)
  | some u => addCommentAuth s u pid txt now

/-! ### HTTP boundary (routing layer; modelled from the spec and the
URL tests, urls.py and views.py are not under src/) -/

/-- HTTP request method. -/
inductive Method
  | get
  | post
deriving DecidableEq

/-- Boundary response. -/
inductive Response
  | ok
  | redirect (loc : String)
  | notFound
deriving DecidableEq

/-- Modelled from the spec: the login redirect carrying the original
path in the `next` query parameter. -/
def loginRedirect (path : String) : Response :=
  Response.redirect ("/auth/login/?next=" ++ path)

def createPath : String := "/create/"

def editPath (pid : Nat) : String := "/posts/" ++ toString pid ++ "/edit/"

def freshPostId (s : Store) : Nat :=
  s.posts.foldr (fun p m => max p.id m) 0 + 1

/-- Modelled from the spec: create a post for authenticated user `u`. -/
def createPost (s : Store) (u : Nat) (txt : String) (g : Option Nat) (now : Nat) : Store :=
  { s with posts := ⟨freshPostId s, txt, now, u, g, none⟩ :: s.posts }

/-- Modelled from the spec: the post-create endpoint — an
unauthenticated caller is redirected to login with the original path
in `next` and no state changes. -/
def handlePostCreate (auth : Option Nat) (txt : String) (g : Option Nat) (now : Nat)
    (s : Store) : Response × Store :=
  match auth with
  | none => (loginRedirect createPath, s)
  | some u => (Response.redirect ("/profile/" ++ toString u ++ "/"), createPost s u txt g now)

/-- Modelled from the spec: rewrite an existing post's text and group. -/
def editPostEntry (pid : Nat) (txt : String) (g : Option Nat) (p : Post) : Post :=
  if p.id == pid then { p with text := txt, group := g } else p

def editPost (s : Store) (pid : Nat) (txt : String) (g : Option Nat) : Store :=
  { s with posts := s.posts.map (editPostEntry pid txt g) }

/-- Modelled from the spec: the post-edit endpoint — an unauthenticated
caller is redirected to login with the original path in `next` and no
state changes; a non-author is redirected away without an edit. -/
def handlePostEdit (auth : Option Nat) (pid : Nat) (txt : String) (g : Option Nat)
    (s : Store) : Response × Store :=
  match auth with
  | none => (loginRedirect (editPath pid), s)
  | some u =>
    match s.posts.find? (fun p => p.id == pid) with
    | none => (Response.notFound, s)
    | some p =>
      if p.author == u then
        (Response.redirect ("/posts/" ++ toString pid ++ "/"), editPost s pid txt g)
      else (Response.redirect ("/posts/" ++ toString pid ++ "/"), s)

/-- Modelled from the spec and the tests: the profile_follow endpoint.
Django function views accept any HTTP method — the tests drive the
mutation with a plain GET — so the handler mutates regardless of the
method argument. -/
def handleProfileFollow (_m : Method) (auth : Option Nat) (a : Nat) (s : Store) :
    Response × Store :=
  match auth with
  | none => (loginRedirect ("/profile/" ++ toString a ++ "/follow/"), s)
  | some u => (Response.redirect ("/profile/" ++ toString a ++ "/"), follow s u a)

/-- Modelled from the spec and the tests: the profile_unfollow
endpoint, likewise reachable by a plain GET. -/
def handleProfileUnfollow (_m : Method) (auth : Option Nat) (a : Nat) (s : Store) :
    Response × Store :=
  match auth with
  | none => (loginRedirect ("/profile/" ++ toString a ++ "/unfollow/"), s)
  | some u => (Response.redirect ("/profile/" ++ toString a ++ "/"), unfollow s u a)

/-- The 13-post fixture of PaginatorViewsTest: 13 posts by one author
in one group. -/
def store13 : Store :=
  ⟨(List.range 13).map (fun i => ⟨i + 1, "test-text", i, 1, some 1, none⟩),
   [⟨1, "test-title", "test-slug", "test-description"⟩], [], []⟩

/-- A small fixture: one post (id 1, author 2), one follow edge 3 → 4. -/
def storeA : Store := ⟨[⟨1, "t", 0, 2, none, none⟩], [], [], [⟨3, 4⟩]⟩

/-- A fixture with two follow edges, 1 → 2 among them. -/
def storeB : Store := ⟨[], [], [], [⟨1, 2⟩, ⟨3, 4⟩]⟩

/-- A fixture with two groups and one post in the first group. -/
def storeG : Store :=
  ⟨[⟨1, "p1", 0, 1, some 1, none⟩],
   [⟨1, "g1", "test-slug", "d1"⟩, ⟨2, "g2", "new-test-slug", "d2"⟩], [], []⟩

/-- Two posts sharing a pub_date instant, inserted in id order. -/
def postA : Post := ⟨1, "a", 5, 1, none, none⟩

/-- The later-inserted of the two equal-instant posts. -/
def postB : Post := ⟨2, "b", 5, 1, none, none⟩

theorem isFollowing_iff_mem (s : Store) (u a : Nat) :
    isFollowing s u a = true ↔ (⟨u, a⟩ : Follow) ∈ s.follows := by
  unfold isFollowing
  rw [List.any_eq_true]
  constructor
  · rintro ⟨f, hf, hp⟩
    simp only [Bool.and_eq_true, beq_iff_eq] at hp
    obtain ⟨h1, h2⟩ := hp
    cases f
    simp_all
  · intro h
    exact ⟨⟨u, a⟩, h, by simp⟩

theorem isFollowing_iff_pair_mem (s : Store) (u a : Nat) :
    isFollowing s u a = true ↔ (u, a) ∈ s.follows.map (fun f => (f.user, f.author)) := by
  rw [isFollowing_iff_mem, List.mem_map]
  constructor
  · intro h; exact ⟨⟨u, a⟩, h, rfl⟩
  · rintro ⟨f, hf, hp⟩
    cases f
    simp only [Prod.mk.injEq] at hp
    obtain ⟨h1, h2⟩ := hp
    subst h1; subst h2
    exact hf

theorem length_filter_pair_le_one (l : List Follow) (u a : Nat)
    (hnd : (l.map (fun f => (f.user, f.author))).Nodup) :
    (l.filter (fun f => f.user == u && f.author == a)).length ≤ 1 := by
  induction l with
  | nil => simp
  | cons f fs ih =>
    simp only [List.map_cons, List.nodup_cons] at hnd
    rw [List.filter_cons]
    by_cases hf : (f.user == u && f.author == a) = true
    · rw [if_pos hf]
      have hnil : fs.filter (fun f => f.user == u && f.author == a) = [] := by
        rw [List.filter_eq_nil_iff]
        intro g hg hgp
        simp only [Bool.and_eq_true, beq_iff_eq] at hf hgp
        exact hnd.1 (List.mem_map.mpr ⟨g, hg, by
          rw [hgp.1, hgp.2, hf.1, hf.2]⟩)
      rw [hnil]
      simp
    · rw [if_neg hf]
      exact ih hnd.2

theorem follow_unique_preserved (s : Store) (u a : Nat) (h : followUnique s) :
    followUnique (follow s u a) := by
  unfold follow
  by_cases hf : isFollowing s u a
  · rw [if_pos hf]; exact h
  · rw [if_neg hf]
    unfold followUnique at h ⊢
    simp only [List.map_cons, List.nodup_cons]
    refine ⟨fun hmem => hf ?_, h⟩
    exact (isFollowing_iff_pair_mem s u a).mpr hmem

theorem follow_adds (s : Store) (u a : Nat) (h : isFollowing s u a = false) :
    isFollowing (follow s u a) u a = true ∧
    (follow s u a).follows.length = s.follows.length + 1 := by
  unfold follow
  rw [if_neg (by simp [h])]
  constructor
  · rw [isFollowing_iff_mem]
    exact List.mem_cons_self _ _
  · simp

theorem countEdges_le_one (s : Store) (u a : Nat) (h : followUnique s) :
    countEdges s u a ≤ 1 :=
  length_filter_pair_le_one s.follows u a h

theorem countEdges_pos_of_isFollowing (s : Store) (u a : Nat)
    (h : isFollowing s u a = true) : 1 ≤ countEdges s u a := by
  rw [isFollowing_iff_mem] at h
  unfold countEdges
  have : (⟨u, a⟩ : Follow) ∈ s.follows.filter (fun f => f.user == u && f.author == a) :=
    List.mem_filter.mpr ⟨h, by simp⟩
  exact List.length_pos.mpr (List.ne_nil_of_mem this)

theorem filter_not_length_add {α : Type} (p : α → Bool) (l : List α) :
    (l.filter (fun x => !p x)).length + (l.filter p).length = l.length := by
  induction l with
  | nil => rfl
  | cons x xs ih =>
    by_cases hx : p x = true
    · simp [List.filter_cons, hx, ← ih]; omega
    · simp only [Bool.not_eq_true] at hx
      simp [List.filter_cons, hx, ← ih]; omega

theorem unfollow_removes (s : Store) (u a : Nat) :
    isFollowing (unfollow s u a) u a = false := by
  unfold unfollow isFollowing
  simp only [List.any_eq_false]
  intro f hf
  have h2 := (List.mem_filter.mp hf).2
  simp only [Bool.not_eq_true', Bool.and_eq_false_iff, beq_eq_false_iff_ne, ne_eq] at h2
  simp only [Bool.and_eq_true, beq_iff_eq]
  tauto

theorem unfollow_count (s : Store) (u a : Nat) (h : isFollowing s u a = true)
    (hu : followUnique s) :
    (unfollow s u a).follows.length + 1 = s.follows.length := by
  have h1 : countEdges s u a = 1 :=
    Nat.le_antisymm (countEdges_le_one s u a hu) (countEdges_pos_of_isFollowing s u a h)
  have h2 := filter_not_length_add (fun f => f.user == u && f.author == a) s.follows
  unfold countEdges at h1
  unfold unfollow
  simp only
  omega

theorem unfollow_idem (s : Store) (u a : Nat) :
    unfollow (unfollow s u a) u a = unfollow s u a := by
  unfold unfollow
  cases s
  simp only [Store.mk.injEq, true_and]
  rw [List.filter_filter]
  simp

theorem unfollow_unique_preserved (s : Store) (u a : Nat) (h : followUnique s) :
    followUnique (unfollow s u a) := by
  unfold followUnique at h ⊢
  unfold unfollow
  simp only
  exact (h.sublist (List.Sublist.map _ (List.filter_sublist _)))

theorem length_insertDesc {α : Type} (key : α → Nat) (x : α) (l : List α) :
    (insertDesc key x l).length = l.length + 1 := by
  induction l with
  | nil => rfl
  | cons y ys ih =>
    unfold insertDesc
    by_cases h : key y ≤ key x
    · rw [if_pos h]; rfl
    · rw [if_neg h]; simp [ih]

theorem mem_insertDesc {α : Type} (key : α → Nat) (x a : α) (l : List α) :
    a ∈ insertDesc key x l ↔ a = x ∨ a ∈ l := by
  induction l with
  | nil => simp [insertDesc]
  | cons y ys ih =>
    unfold insertDesc
    by_cases h : key y ≤ key x
    · rw [if_pos h]; simp
    · rw [if_neg h]; simp [ih]; tauto

theorem length_sortDesc {α : Type} (key : α → Nat) (l : List α) :
    (sortDesc key l).length = l.length := by
  induction l with
  | nil => rfl
  | cons x xs ih => unfold sortDesc; rw [length_insertDesc, ih]; rfl

theorem mem_sortDesc {α : Type} (key : α → Nat) (a : α) (l : List α) :
    a ∈ sortDesc key l ↔ a ∈ l := by
  induction l with
  | nil => simp [sortDesc]
  | cons x xs ih => unfold sortDesc; rw [mem_insertDesc, ih]; simp

theorem insertDesc_eq_cons {α : Type} (key : α → Nat) (x : α) (l : List α)
    (h : ∀ y ∈ l, key y ≤ key x) : insertDesc key x l = x :: l := by
  cases l with
  | nil => rfl
  | cons y ys =>
    unfold insertDesc
    rw [if_pos (h y (List.mem_cons_self _ _))]

theorem length_paginate {α : Type} (l : List α) (page size : Nat) :
    (paginate l page size).length = min size (l.length - (normPage page - 1) * size) := by
  unfold paginate
  rw [List.length_take, List.length_drop]

theorem count_le_lastPage_mul (count size : Nat) (hs : 0 < size) :
    count ≤ lastPage count size * size := by
  unfold lastPage
  have h1 := Nat.div_add_mod count size
  have h2 : count % size < size := Nat.mod_lt _ hs
  by_cases hr : count % size = 0
  · rw [if_pos hr, Nat.add_zero]
    have h3 : count / size * size = size * (count / size) := Nat.mul_comm _ _
    omega
  · rw [if_neg hr]
    have h3 : (count / size + 1) * size = size * (count / size) + size := by
      rw [Nat.add_mul, Nat.one_mul, Nat.mul_comm]
    omega

theorem paginate_beyond_last {α : Type} (l : List α) (page size : Nat)
    (hs : 0 < size) (h : lastPage l.length size < page) :
    paginate l page size = [] := by
  have hp0 : page ≠ 0 := by omega
  have hnorm : normPage page = page := if_neg hp0
  have hge : l.length ≤ (page - 1) * size := by
    have h1 := count_le_lastPage_mul l.length size hs
    have h2 : lastPage l.length size ≤ page - 1 := by omega
    calc l.length ≤ lastPage l.length size * size := h1
      _ ≤ (page - 1) * size := Nat.mul_le_mul_right _ h2
  unfold paginate
  rw [hnorm, List.drop_eq_nil_of_le hge, List.take_nil]

theorem normPage_of_pos (p : Nat) (h : 0 < p) : normPage p = p := by
  unfold normPage; rw [if_neg (by omega)]

theorem length_paginate_lastPage {α : Type} (l : List α) (size : Nat)
    (hs : 0 < size) (hc : 0 < l.length) :
    (paginate l (lastPage l.length size) size).length =
      if l.length % size = 0 then size else l.length % size := by
  have h1 := Nat.div_add_mod l.length size
  have h2 : l.length % size < size := Nat.mod_lt _ hs
  rw [length_paginate]
  by_cases hr : l.length % size = 0
  · rw [if_pos hr]
    have hq : 0 < l.length / size := by
      rcases Nat.eq_zero_or_pos (l.length / size) with h | h
      · rw [h, Nat.mul_zero] at h1; omega
      · exact h
    have hlp : lastPage l.length size = l.length / size := by
      unfold lastPage; rw [if_pos hr, Nat.add_zero]
    rw [hlp, normPage_of_pos _ hq]
    obtain ⟨t, ht⟩ : ∃ t, l.length / size = t + 1 := ⟨l.length / size - 1, by omega⟩
    rw [ht] at h1 ⊢
    have h3 : size * (t + 1) = size * t + size := Nat.mul_succ _ _
    have h4 : (t + 1 - 1) * size = size * t := by
      rw [Nat.add_sub_cancel, Nat.mul_comm]
    rw [h4]
    have h5 : l.length - size * t = size := by omega
    rw [h5, Nat.min_self]
  · rw [if_neg hr]
    have hlp : lastPage l.length size = l.length / size + 1 := by
      unfold lastPage; rw [if_neg hr]
    rw [hlp, normPage_of_pos _ (Nat.succ_pos _)]
    have h4 : (l.length / size + 1 - 1) * size = size * (l.length / size) := by
      rw [Nat.add_sub_cancel, Nat.mul_comm]
    rw [h4]
    have h5 : l.length - size * (l.length / size) = l.length % size :=
      Nat.sub_eq_of_eq_add (by rw [Nat.add_comm]; exact h1.symm)
    rw [h5]
    exact Nat.min_eq_right (by omega)

theorem mem_paginate {α : Type} {a : α} {l : List α} {page size : Nat}
    (h : a ∈ paginate l page size) : a ∈ l := by
  unfold paginate at h
  exact List.mem_of_mem_drop (List.mem_of_mem_take h)

/-! ### Claims -/

/-- C1: under the `unique_followers` constraint the Follow store never
holds more than one edge for an ordered (user, author) pair — the
invariant is preserved by `follow` and bounds the per-pair edge count
by 1 — and for a pair with no prior edge, `follow` makes `isFollowing`
true and increases the Follow count by exactly 1. -/
theorem C1_follow_unique_and_adds (s : Store) (u a : Nat) (hu : followUnique s) :
    followUnique (follow s u a) ∧ countEdges s u a ≤ 1 ∧
    (isFollowing s u a = false →
      isFollowing (follow s u a) u a = true ∧
      (follow s u a).follows.length = s.follows.length + 1) :=
  ⟨follow_unique_preserved s u a hu, countEdges_le_one s u a hu,
   fun h => follow_adds s u a h⟩

/-- C1 witness: the fixture store with no 1 → 2 edge. -/
theorem C1_witness :
    followUnique storeA ∧ isFollowing storeA 1 2 = false ∧
    (followUnique (follow storeA 1 2) ∧ countEdges storeA 1 2 ≤ 1 ∧
     (isFollowing storeA 1 2 = false →
       isFollowing (follow storeA 1 2) 1 2 = true ∧
       (follow storeA 1 2).follows.length = storeA.follows.length + 1)) :=
  ⟨by decide, by decide, C1_follow_unique_and_adds storeA 1 2 (by decide)⟩

/-- C6: for an existing edge, `unfollow` makes `isFollowing` false and
decreases the Follow count by exactly 1; a second `unfollow` of the
same pair is a no-op. -/
theorem C6_unfollow (s : Store) (u a : Nat) (h : isFollowing s u a = true)
    (hu : followUnique s) :
    isFollowing (unfollow s u a) u a = false ∧
    (unfollow s u a).follows.length + 1 = s.follows.length ∧
    unfollow (unfollow s u a) u a = unfollow s u a :=
  ⟨unfollow_removes s u a, unfollow_count s u a h hu, unfollow_idem s u a⟩

/-- C6 witness: the fixture store holding the edge 1 → 2. -/
theorem C6_witness :
    isFollowing storeB 1 2 = true ∧ followUnique storeB ∧
    (isFollowing (unfollow storeB 1 2) 1 2 = false ∧
     (unfollow storeB 1 2).follows.length + 1 = storeB.follows.length ∧
     unfollow (unfollow storeB 1 2) 1 2 = unfollow storeB 1 2) :=
  ⟨by decide, by decide, C6_unfollow storeB 1 2 (by decide) (by decide)⟩

/-- C2: with the 13-post fixture and page size 10, the global feed has
10 items on page 1 and 3 on page 2; for any assembled sequence, a page
beyond the last available page is empty rather than failing, and the
last page holds count mod size items when the remainder is nonzero,
else a full page. -/
theorem C2_pagination :
    (paginate (globalFeed store13) 1 POSTS_COUNT).length = 10 ∧
    (paginate (globalFeed store13) 2 POSTS_COUNT).length = 3 ∧
    (∀ (l : List Post) (page size : Nat), 0 < size →
      lastPage l.length size < page → paginate l page size = []) ∧
    (∀ (l : List Post) (size : Nat), 0 < size → 0 < l.length →
      (paginate l (lastPage l.length size) size).length =
        if l.length % size = 0 then size else l.length % size) :=
  ⟨by decide, by decide,
   fun l page size hs h => paginate_beyond_last l page size hs h,
   fun l size hs hc => length_paginate_lastPage l size hs hc⟩

/-- C2 witness: page 3 of the 13-post fixture is empty and its last
page (page 2) holds 13 mod 10 = 3 items. -/
theorem C2_witness :
    (0 < POSTS_COUNT ∧ lastPage (globalFeed store13).length POSTS_COUNT < 3 ∧
     0 < (globalFeed store13).length) ∧
    paginate (globalFeed store13) 3 POSTS_COUNT = [] ∧
    (paginate (globalFeed store13) (lastPage (globalFeed store13).length POSTS_COUNT)
      POSTS_COUNT).length =
      if (globalFeed store13).length % POSTS_COUNT = 0 then POSTS_COUNT
      else (globalFeed store13).length % POSTS_COUNT :=
  ⟨⟨by decide, by decide, by decide⟩,
   C2_pagination.2.2.1 (globalFeed store13) 3 POSTS_COUNT (by decide) (by decide),
   C2_pagination.2.2.2 (globalFeed store13) POSTS_COUNT (by decide) (by decide)⟩

/-- C4: a post appears in FollowingFeed(user) iff it is stored and its
author is in followingOf(user); when followingOf(user) is empty the
feed is the empty sequence, not an error. -/
theorem C4_following_feed (s : Store) (u : Nat) (p : Post) :
    (p ∈ followingFeed s u ↔ p ∈ s.posts ∧ p.author ∈ followingOf s u) ∧
    (followingOf s u = [] → followingFeed s u = []) := by
  constructor
  · unfold followingFeed
    rw [mem_sortDesc, List.mem_filter]
    simp
  · intro h
    unfold followingFeed
    rw [h]
    have hnil : s.posts.filter (fun p => decide (p.author ∈ ([] : List Nat))) = [] := by
      rw [List.filter_eq_nil_iff]
      intro a _ha
      simp
    rw [hnil]
    rfl

/-- C4 witness: in the fixture store user 1 follows nobody, so their
feed is empty and the fixture post is not a member. -/
theorem C4_witness :
    ((⟨1, "t", 0, 2, none, none⟩ : Post) ∈ followingFeed storeA 1 ↔
      (⟨1, "t", 0, 2, none, none⟩ : Post) ∈ storeA.posts ∧
      (2 : Nat) ∈ followingOf storeA 1) ∧
    (followingOf storeA 1 = [] → followingFeed storeA 1 = []) :=
  C4_following_feed storeA 1 ⟨1, "t", 0, 2, none, none⟩

/-- C5 counterexample: the declared Post ordering (models.py:
`ordering = ('-pub_date',)`, descending pub_date and nothing else)
admits the arrangement [postA, postB], in which two posts with the
same pub_date appear lower-id first — the claimed higher-id-first
secondary key is not forced by the code. -/
theorem C5_counterexample :
    pubDateSortedDesc [postA, postB] = true ∧
    postA.pubDate = postB.pubDate ∧ postA.id < postB.id := by
  decide

/-- C5 (amended): the declared Post ordering constrains pub_date only;
for two posts with equal pub_date both relative arrangements satisfy
it, so the order of ties is left undetermined by the model layer. -/
theorem C5_no_tiebreak (p q : Post) (h : p.pubDate = q.pubDate) :
    pubDateSortedDesc [p, q] = true ∧ pubDateSortedDesc [q, p] = true := by
  simp [pubDateSortedDesc, h]

/-- C5 witness: the two equal-instant fixture posts. -/
theorem C5_witness :
    postA.pubDate = postB.pubDate ∧
    (pubDateSortedDesc [postA, postB] = true ∧
     pubDateSortedDesc [postB, postA] = true) :=
  ⟨by decide, C5_no_tiebreak postA postB (by decide)⟩

theorem requestIndex_hit (s : Store) (r : List Nat) (e now : Nat) (h : now < e) :
    requestIndex ⟨s, some (r, e)⟩ now = (r, ⟨s, some (r, e)⟩) := by
  simp [requestIndex, h]

/-- C3: with a nonempty post set and a cold cache, requesting the home
feed caches its rendering; deleting every post and re-requesting
within the TTL returns the byte-identical cached rendering, while
re-requesting after an explicit cache clear returns the empty-store
rendering, which differs from the cached one. -/
theorem C3_cache (s : Store) (t0 t1 : Nat) (hne : s.posts ≠ [])
    (hin : t1 < t0 + CACHE_TTL) :
    (requestIndex (deleteAllPosts (requestIndex ⟨s, none⟩ t0).2) t1).1 =
      (requestIndex ⟨s, none⟩ t0).1 ∧
    (requestIndex (clearCache (deleteAllPosts (requestIndex ⟨s, none⟩ t0).2)) t1).1 = [] ∧
    (requestIndex ⟨s, none⟩ t0).1 ≠ [] := by
  have hfirst : requestIndex ⟨s, none⟩ t0 =
      (renderIndex s, ⟨s, some (renderIndex s, t0 + CACHE_TTL)⟩) := rfl
  refine ⟨?_, ?_, ?_⟩
  · rw [hfirst]
    show (requestIndex ⟨deleteAllPostsStore s, some (renderIndex s, t0 + CACHE_TTL)⟩ t1).1 =
      renderIndex s
    rw [requestIndex_hit _ _ _ _ hin]
  · rw [hfirst]
    rfl
  · rw [hfirst]
    show renderIndex s ≠ []
    intro hcon
    have hlen : (renderIndex s).length = 0 := by rw [hcon]; rfl
    unfold renderIndex at hlen
    rw [List.length_map, length_paginate] at hlen
    have hpos : 0 < min POSTS_COUNT
        ((globalFeed s).length - (normPage 1 - 1) * POSTS_COUNT) := by
      apply lt_min
      · decide
      · have hgf : 0 < (globalFeed s).length := by
          unfold globalFeed
          rw [length_sortDesc]
          exact List.length_pos.mpr hne
        simpa [normPage] using hgf
    exact (Nat.pos_iff_ne_zero.mp hpos) hlen

/-- C3 witness: the one-post fixture, first request at instant 0,
re-requests at instant 5 (within the 20-second TTL). -/
theorem C3_witness :
    (storeA.posts ≠ [] ∧ 5 < 0 + CACHE_TTL) ∧
    ((requestIndex (deleteAllPosts (requestIndex ⟨storeA, none⟩ 0).2) 5).1 =
      (requestIndex ⟨storeA, none⟩ 0).1 ∧
     (requestIndex (clearCache (deleteAllPosts (requestIndex ⟨storeA, none⟩ 0).2)) 5).1 = [] ∧
     (requestIndex ⟨storeA, none⟩ 0).1 ≠ []) :=
  ⟨⟨by decide, by decide⟩, C3_cache storeA 0 5 (by decide) (by decide)⟩

/-- C7: a post belonging to group G1 never appears in the ByGroup feed
of a distinct group G2, on the full feed or on any page of it. -/
theorem C7_group_isolation (s : Store) (g1 g2 : Group) (p : Post)
    (hwf : storeWF s) (h1 : g1 ∈ s.groups) (h2 : g2 ∈ s.groups)
    (hne : g1 ≠ g2) (hp : p.group = some g1.id) (page size : Nat) :
    p ∉ byGroupFeed s g2.slug ∧ p ∉ paginate (byGroupFeed s g2.slug) page size := by
  have hmain : p ∉ byGroupFeed s g2.slug := by
    unfold byGroupFeed
    cases hfind : findGroup s g2.slug with
    | none => simp
    | some g =>
      rw [mem_sortDesc]
      intro hmem
      have hgmem : g ∈ s.groups := List.mem_of_find?_eq_some hfind
      have hgslug : g.slug = g2.slug := by
        have := List.find?_some hfind
        simpa using this
      have hgeq : g = g2 := List.inj_on_of_nodup_map hwf.2 hgmem h2 (by rw [hgslug])
      subst hgeq
      have hgrp := (List.mem_filter.mp hmem).2
      simp only [beq_iff_eq] at hgrp
      rw [hp] at hgrp
      exact hne (List.inj_on_of_nodup_map hwf.1 h1 h2 (Option.some.inj hgrp))
  exact ⟨hmain, fun hpag => hmain (mem_paginate hpag)⟩

/-- C7 witness: the two-group fixture; its post sits in group 1 and is
absent from group 2's feed and from page 1 of it. -/
theorem C7_witness :
    (storeWF storeG ∧ (⟨1, "g1", "test-slug", "d1"⟩ : Group) ∈ storeG.groups ∧
     (⟨2, "g2", "new-test-slug", "d2"⟩ : Group) ∈ storeG.groups ∧
     (⟨1, "g1", "test-slug", "d1"⟩ : Group) ≠ ⟨2, "g2", "new-test-slug", "d2"⟩ ∧
     (⟨1, "p1", 0, 1, some 1, none⟩ : Post).group = some 1) ∧
    ((⟨1, "p1", 0, 1, some 1, none⟩ : Post) ∉ byGroupFeed storeG "new-test-slug" ∧
     (⟨1, "p1", 0, 1, some 1, none⟩ : Post) ∉
       paginate (byGroupFeed storeG "new-test-slug") 1 POSTS_COUNT) :=
  ⟨⟨by decide, by decide, by decide, by decide, by decide⟩,
   C7_group_isolation storeG ⟨1, "g1", "test-slug", "d1"⟩ ⟨2, "g2", "new-test-slug", "d2"⟩
     ⟨1, "p1", 0, 1, some 1, none⟩ (by decide) (by decide) (by decide) (by decide)
     (by decide) 1 POSTS_COUNT⟩

theorem postComments_insert (s : Store) (pid : Nat) (c : Comment)
    (hc : c.post = some pid) (hnow : ∀ d ∈ s.comments, d.created < c.created) :
    postComments { s with comments := c :: s.comments } pid = c :: postComments s pid := by
  show sortDesc Comment.created
      (List.filter (fun d => d.post == some pid) (c :: s.comments)) =
    c :: sortDesc Comment.created (List.filter (fun d => d.post == some pid) s.comments)
  rw [List.filter_cons, if_pos (by simp [hc])]
  exact insertDesc_eq_cons Comment.created c
    (sortDesc Comment.created (List.filter (fun d => d.post == some pid) s.comments))
    (fun y hy => Nat.le_of_lt
      (hnow y (List.mem_filter.mp ((mem_sortDesc _ _ _).mp hy)).1))

/-- C8: unauthenticated addComment fails Unauthorized leaving the
Comment store unchanged; authenticated addComment grows the target
post's comment count by exactly 1, and the fresh comment is the first
item of post.comments under the newest-first (descending created)
ordering. -/
theorem C8_add_comment (s : Store) (u pid : Nat) (txt : String) (now : Nat)
    (hpost : s.posts.any (fun p => p.id == pid) = true)
    (hnow : ∀ c ∈ s.comments, c.created < now) :
    (addComment s none pid txt now).1 = Except.error OpError.unauthorized ∧
    (addComment s none pid txt now).2 = s ∧
    (postComments (addComment s (some u) pid txt now).2 pid).length =
      (postComments s pid).length + 1 ∧
    (postComments (addComment s (some u) pid txt now).2 pid).head? =
      some ⟨freshCommentId s, some pid, some u, txt, now⟩ := by
  have h2 : (addComment s (some u) pid txt now).2 =
      { s with comments :=
        (⟨freshCommentId s, some pid, some u, txt, now⟩ : Comment) :: s.comments } := by
    show (addCommentAuth s u pid txt now).2 = _
    unfold addCommentAuth
    rw [if_pos hpost]
  have h3 := postComments_insert s pid ⟨freshCommentId s, some pid, some u, txt, now⟩ rfl hnow
  refine ⟨rfl, rfl, ?_, ?_⟩
  · rw [h2, h3]
    rfl
  · rw [h2, h3]
    rfl

/-- C8 witness: the one-post fixture (post id 1, no comments), comment
written at instant 7. -/
theorem C8_witness :
    (storeA.posts.any (fun p => p.id == 1) = true ∧
     (∀ c ∈ storeA.comments, c.created < 7)) ∧
    ((addComment storeA none 1 "hi" 7).1 = Except.error OpError.unauthorized ∧
     (addComment storeA none 1 "hi" 7).2 = storeA ∧
     (postComments (addComment storeA (some 2) 1 "hi" 7).2 1).length =
       (postComments storeA 1).length + 1 ∧
     (postComments (addComment storeA (some 2) 1 "hi" 7).2 1).head? =
       some ⟨freshCommentId storeA, some 1, some 2, "hi", 7⟩) :=
  ⟨⟨by decide, by decide⟩, C8_add_comment storeA 2 1 "hi" 7 (by decide) (by decide)⟩

/-- C9: unauthenticated post create and post edit leave the store
unchanged and redirect to the login endpoint carrying the original
path in the `next` parameter. -/
theorem C9_login_redirect (s : Store) (txt : String) (g : Option Nat) (now pid : Nat) :
    (handlePostCreate none txt g now s).2 = s ∧
    (handlePostCreate none txt g now s).1 =
      Response.redirect ("/auth/login/?next=" ++ createPath) ∧
    (handlePostEdit none pid txt g s).2 = s ∧
    (handlePostEdit none pid txt g s).1 =
      Response.redirect ("/auth/login/?next=" ++ editPath pid) ∧
    (handlePostEdit none 1 txt g s).1 =
      Response.redirect "/auth/login/?next=/posts/1/edit/" :=
  ⟨rfl, rfl, rfl, rfl, rfl⟩

/-- C10: the follow and unfollow mutations are reachable by plain HTTP
GET: one GET to profile_follow by an authenticated user with no prior
edge creates the edge (changing persistent state), and one GET to
profile_unfollow removes it again. -/
theorem C10_get_mutates (s : Store) (u a : Nat)
    (hno : isFollowing s u a = false) (hu : followUnique s) :
    isFollowing (handleProfileFollow Method.get (some u) a s).2 u a = true ∧
    (handleProfileFollow Method.get (some u) a s).2.follows.length =
      s.follows.length + 1 ∧
    (handleProfileFollow Method.get (some u) a s).2 ≠ s ∧
    isFollowing (handleProfileUnfollow Method.get (some u) a
      (handleProfileFollow Method.get (some u) a s).2).2 u a = false ∧
    (handleProfileUnfollow Method.get (some u) a
      (handleProfileFollow Method.get (some u) a s).2).2.follows.length =
      s.follows.length := by
  obtain ⟨ha, hb⟩ := follow_adds s u a hno
  have hkey : (handleProfileFollow Method.get (some u) a s).2 = follow s u a := rfl
  have hkey2 : (handleProfileUnfollow Method.get (some u) a (follow s u a)).2 =
      unfollow (follow s u a) u a := rfl
  refine ⟨by rw [hkey]; exact ha, by rw [hkey]; exact hb, ?_, ?_, ?_⟩
  · rw [hkey]
    intro he
    rw [he] at hb
    omega
  · rw [hkey, hkey2]
    exact unfollow_removes (follow s u a) u a
  · rw [hkey, hkey2]
    have hc := unfollow_count (follow s u a) u a ha (follow_unique_preserved s u a hu)
    omega

/-- C10 witness: the fixture store with no 1 → 2 edge; one GET follows
and a second GET unfollows. -/
theorem C10_witness :
    (isFollowing storeA 1 2 = false ∧ followUnique storeA) ∧
    (isFollowing (handleProfileFollow Method.get (some 1) 2 storeA).2 1 2 = true ∧
     (handleProfileFollow Method.get (some 1) 2 storeA).2.follows.length =
       storeA.follows.length + 1 ∧
     (handleProfileFollow Method.get (some 1) 2 storeA).2 ≠ storeA ∧
     isFollowing (handleProfileUnfollow Method.get (some 1) 2
       (handleProfileFollow Method.get (some 1) 2 storeA).2).2 1 2 = false ∧
     (handleProfileUnfollow Method.get (some 1) 2
       (handleProfileFollow Method.get (some 1) 2 storeA).2).2.follows.length =
       storeA.follows.length) :=
  ⟨⟨by decide, by decide⟩, C10_get_mutates storeA 1 2 (by decide) (by decide)⟩

end Yatube
